import Mathlib

/-!
Shallow embedding of the sentence/audio timeline editor of the ai-dubbing-tool
repository (React front end).  Times are rational numbers standing for the
floating-point second values of the source; remote fetches and audio decoding
are modelled by an explicit outcome value; the component state that the claims
are about (playback flags, current position, loaded buffer, active buffer
sources) is an explicit record threaded through the operations.

Sources embedded:
  src/src/components/AudioEditor.js   (playback engine and loaders)
  src/src/hooks/useDubbingTool.js     (updateSentence)
  src/unnamed/part_001                (SentenceTimeline: handleDialogueRefine)
  src/src/utils/videoUtils.js         (audioBufferToWav)
-/

/-- Sentence segment as produced by the backend and mutated by the editor.
Mirrors the fields touched by the embedded operations. -/
structure Sentence where
  id : Nat
  startTime : ℚ
  duration : ℚ
  originalText : String
  translatedText : String
  audioUrl : Option String := none
  modifiedAudioUrl : Option String := none
  dubbedAudio : Option String := none
  modifiedAudioPath : Option String := none
  referenceAudioPath : Option String := none
  refinedAt : Option String := none
  isRefined : Bool := false
deriving DecidableEq

/-- Partial update object passed to updateSentence; a field present in the
JavaScript object literal is `some`, an absent field is `none`. -/
structure SentenceUpdate where
  id : Option Nat := none
  startTime : Option ℚ := none
  duration : Option ℚ := none
  originalText : Option String := none
  translatedText : Option String := none
  audioUrl : Option (Option String) := none
  modifiedAudioUrl : Option (Option String) := none
  dubbedAudio : Option (Option String) := none
  modifiedAudioPath : Option (Option String) := none
  referenceAudioPath : Option (Option String) := none
  refinedAt : Option (Option String) := none
  isRefined : Option Bool := none
deriving DecidableEq

/-- JavaScript object spread: fields present in the update replace the
segment's fields, absent fields are kept. -/
def mergeSentence (s : Sentence) (u : SentenceUpdate) : Sentence where
  id := u.id.getD s.id
  startTime := u.startTime.getD s.startTime
  duration := u.duration.getD s.duration
  originalText := u.originalText.getD s.originalText
  translatedText := u.translatedText.getD s.translatedText
  audioUrl := u.audioUrl.getD s.audioUrl
  modifiedAudioUrl := u.modifiedAudioUrl.getD s.modifiedAudioUrl
  dubbedAudio := u.dubbedAudio.getD s.dubbedAudio
  modifiedAudioPath := u.modifiedAudioPath.getD s.modifiedAudioPath
  referenceAudioPath := u.referenceAudioPath.getD s.referenceAudioPath
  refinedAt := u.refinedAt.getD s.refinedAt
  isRefined := u.isRefined.getD s.isRefined

/-- useDubbingTool.js, updateSentence: map over the list, spreading the
updates into the segment whose id matches. -/
def updateSentence (sentenceId : Nat) (updates : SentenceUpdate)
    (prevSentences : List Sentence) : List Sentence :=
  prevSentences.map (fun sentence =>
    if sentence.id = sentenceId then mergeSentence sentence updates else sentence)

/-- JavaScript truthiness of an optional string (undefined and the empty
string are falsy). -/
def truthy : Option String → Bool
  | none => false
  | some s => s != ""

/-- AudioEditor.js, getSentenceAtTime: first sentence whose closed interval
contains the time. -/
def getSentenceAtTime (sentences : List Sentence) (time : ℚ) : Option Sentence :=
  sentences.find? (fun sentence =>
    decide (sentence.startTime ≤ time) &&
      decide (time ≤ sentence.startTime + sentence.duration))

/-- The propositional form of the predicate tested by getSentenceAtTime. -/
def inSentenceInterval (s : Sentence) (t : ℚ) : Prop :=
  s.startTime ≤ t ∧ t ≤ s.startTime + s.duration

/-- Decoded audio buffer; only its duration matters to the editor state. -/
structure AudioBuf where
  duration : ℚ
deriving DecidableEq

/-- Outcome of one fetch-and-decode round trip. -/
inductive LoadOutcome where
  | ok (buf : AudioBuf)
  | httpError (status : Nat)
  | networkError
  | decodeError
deriving DecidableEq

/-- The AudioEditor component state relevant to playback: React state flags,
the refs holding the decoded buffer and the registered source node, and a
registry of all buffer sources currently started and not yet stopped
(each started source gets a fresh id). -/
structure EditorState where
  isPlaying : Bool
  currentTime : ℚ
  duration : ℚ
  startTimeRef : ℚ
  audioBuffer : Option AudioBuf
  currentAudioType : String
  sourceNode : Option Nat
  activeSources : List Nat
  nextSourceId : Nat
deriving DecidableEq

/-- Stopping the source held in sourceNodeRef (if any) and nulling the ref;
the stopped source leaves the active registry. -/
def stopSourceNode (s : EditorState) : EditorState :=
  match s.sourceNode with
  | some sid =>
      { s with sourceNode := none, activeSources := s.activeSources.erase sid }
  | none => s

/-- AudioEditor.js, playAudio: bail out without a buffer; stop any existing
registered source; create and start a fresh source at the current position;
record the start clock (startTimeRef equals now minus currentTime). -/
def playAudio (now : ℚ) (s : EditorState) : EditorState :=
  match s.audioBuffer with
  | none => s
  | some _ =>
      let s1 := stopSourceNode s
      { s1 with
          sourceNode := some s1.nextSourceId
          activeSources := s1.activeSources ++ [s1.nextSourceId]
          nextSourceId := s1.nextSourceId + 1
          startTimeRef := now - s1.currentTime
          isPlaying := true }

/-- AudioEditor.js, pauseAudio: stop and null the registered source, cancel
the animation frame, clear the playing flag; currentTime is not touched. -/
def pauseAudio (s : EditorState) : EditorState :=
  { stopSourceNode s with isPlaying := false }

/-- AudioEditor.js lines 231-234, the onended handler installed on every
source created by playAudio: it clears the playing flag and resets the
position to zero.  The platform dispatches ended both when the buffer runs
out and when stop() is called on the source. -/
def sourceOnended (s : EditorState) : EditorState :=
  { s with isPlaying := false, currentTime := 0 }

/-- AudioEditor.js, updatePlaybackTime: while playing, recompute the position
from the engine clock and the recorded start clock; past the end, stop and
reset to zero. -/
def updatePlaybackTime (now : ℚ) (s : EditorState) : EditorState :=
  if s.isPlaying then
    let newTime := now - s.startTimeRef
    if s.duration ≤ newTime then { s with isPlaying := false, currentTime := 0 }
    else { s with currentTime := max 0 newTime }
  else s

/-- AudioEditor.js, playSentenceAudio: if the sentence has a per-sentence
clip URL and the fetch-and-decode succeeds, start a brand new source for the
clip.  The existing registered source is neither stopped nor replaced, and
the new source is not recorded in sourceNodeRef. -/
def playSentenceAudio (fetched : LoadOutcome) (sentence : Sentence)
    (s : EditorState) : EditorState :=
  if truthy sentence.audioUrl then
    match fetched with
    | LoadOutcome.ok _ =>
        { s with
            activeSources := s.activeSources ++ [s.nextSourceId]
            nextSourceId := s.nextSourceId + 1 }
    | _ => s
  else s

/-- AudioEditor.js, loadAudioFromUrl: pause if playing, stop any registered
source, then fetch and decode; on success install the new buffer, duration
and type tag and reset the position; on any failure only log (the error is
swallowed, so the state changes of the preamble remain). -/
def loadAudioFromUrl (outcome : LoadOutcome) (audioType : String)
    (s : EditorState) : EditorState :=
  let s1 := if s.isPlaying then pauseAudio s else s
  let s2 := stopSourceNode s1
  match outcome with
  | LoadOutcome.ok buf =>
      { s2 with
          audioBuffer := some buf
          duration := buf.duration
          currentAudioType := audioType
          currentTime := 0 }
  | _ => s2

/-- AudioEditor.js, loadAudioBuffer: decode a local file; on success install
buffer and duration and reset position; failures are only logged. -/
def loadAudioBuffer (outcome : LoadOutcome) (s : EditorState) : EditorState :=
  match outcome with
  | LoadOutcome.ok buf =>
      { s with audioBuffer := some buf, duration := buf.duration, currentTime := 0 }
  | _ => s

/-- AudioEditor.js, loadCompleteAudio: prefer the first sentence carrying a
modified full-mix URL (loaded through loadAudioFromUrl with a cache-busted
URL, reporting true even when that load failed, because loadAudioFromUrl
never throws); otherwise fall back to the processed audio file; report false
only when neither exists. -/
def loadCompleteAudio (outcome : LoadOutcome) (sentences : List Sentence)
    (processedAudio : Bool) (s : EditorState) : EditorState × Bool :=
  match sentences.find? (fun t => truthy t.modifiedAudioUrl) with
  | some _ => (loadAudioFromUrl outcome "complete" s, true)
  | none =>
      if processedAudio then (loadAudioBuffer outcome s, true) else (s, false)

/-- AudioEditor.js, forceLoadCompleteAudio: pause if playing, stop any
registered source, CLEAR the current buffer, duration and position, wait,
then attempt loadCompleteAudio. -/
def forceLoadCompleteAudio (outcome : LoadOutcome) (sentences : List Sentence)
    (processedAudio : Bool) (s : EditorState) : EditorState × Bool :=
  let s1 := if s.isPlaying then pauseAudio s else s
  let s2 := stopSourceNode s1
  let s3 := { s2 with audioBuffer := none, duration := 0, currentTime := 0 }
  loadCompleteAudio outcome sentences processedAudio s3

/-- AudioEditor.js, handleSeek: with a zero duration do nothing; otherwise
clamp the click fraction to the unit interval, scale by the duration, store
the new position, and if playing stop and restart the source there. -/
def handleSeek (clickX width now : ℚ) (s : EditorState) : EditorState :=
  if s.duration = 0 then s
  else
    let percentage := max 0 (min 1 (clickX / width))
    let newTime := percentage * s.duration
    let s1 := { s with currentTime := newTime }
    if s1.isPlaying then playAudio now (pauseAudio s1) else s1

/-- Cache-busting URL built by the manual loaders in AudioEditor.js: the
base URL with a query parameter carrying the current clock value. -/
def cacheBustedUrl (url : String) (now : Nat) : String :=
  url ++ "?t=" ++ toString now

/-- Whether a URL carries any query string at all. -/
def hasQuery (url : String) : Bool :=
  url.data.any (fun c => decide (c = '?'))

/-- The URL playSentenceAudio passes to fetch: the raw per-sentence clip URL,
with no cache parameter appended (none when the sentence has no clip). -/
def playSentenceFetchUrl (sentence : Sentence) : Option String :=
  if truthy sentence.audioUrl then sentence.audioUrl else none

/-- The URL loadModifiedFullAudio passes to loadAudioFromUrl: the first
modified full-mix URL found among the sentences, cache-busted with the
current clock value. -/
def loadModifiedFullAudioUrl (now : Nat) (sentences : List Sentence) :
    Option String :=
  match sentences.find? (fun t => truthy t.modifiedAudioUrl) with
  | some t =>
      match t.modifiedAudioUrl with
      | some u => some (cacheBustedUrl u now)
      | none => none
  | none => none

/-- Response body of the reprocess-sentence endpoint, as read by
handleDialogueRefine in src/unnamed/part_001. -/
structure ReprocessResult where
  sentenceAudioPath : Option String := none
  audioPath : Option String := none
  sentenceAudioUrl : Option String := none
  audioUrl : Option String := none
  modifiedAudioPath : Option String := none
  modifiedAudioUrl : Option String := none
deriving DecidableEq

/-- Outcome of the audio-resynthesis request of handleDialogueRefine:
a parsed response, a non-ok HTTP response, or a thrown network error. -/
inductive RefineOutcome where
  | ok (r : ReprocessResult)
  | httpError (statusText : String)
  | networkError
deriving DecidableEq

/-- JavaScript a || b over optional strings (undefined and empty are falsy). -/
def jsOr (a b : Option String) : Option String :=
  if truthy a then a else b

/-- src/unnamed/part_001, handleDialogueRefine: first write the refined text
into the segment; then request audio resynthesis; on success write text,
audio references and refinement stamp; on a non-ok response only log; on a
thrown error write the text (again). -/
def handleDialogueRefine (refining : Sentence) (refinedText nowIso : String)
    (outcome : RefineOutcome) (sentences : List Sentence) : List Sentence :=
  let l1 := updateSentence refining.id
    { translatedText := some refinedText, isRefined := some true } sentences
  match outcome with
  | RefineOutcome.ok r =>
      updateSentence refining.id
        { translatedText := some refinedText
          dubbedAudio := some (jsOr r.sentenceAudioPath r.audioPath)
          audioUrl := some (jsOr r.sentenceAudioUrl r.audioUrl)
          modifiedAudioPath := some r.modifiedAudioPath
          modifiedAudioUrl := some r.modifiedAudioUrl
          isRefined := some true
          refinedAt := some (some nowIso) } l1
  | RefineOutcome.httpError _ => l1
  | RefineOutcome.networkError =>
      updateSentence refining.id
        { translatedText := some refinedText, isRefined := some true } l1

/-- videoUtils.js, audioBufferToWav: clamp one float sample to the unit
range. -/
def clampSample (x : ℚ) : ℚ := max (-1) (min 1 x)

/-- videoUtils.js, audioBufferToWav: scale a clamped sample, negatives by
0x8000 and non-negatives by 0x7FFF. -/
def scaleSample (x : ℚ) : ℚ :=
  if clampSample x < 0 then clampSample x * 32768 else clampSample x * 32767

/-- Truncation toward zero, the first step of the ToInt16 conversion that
DataView.setInt16 applies to its argument. -/
def ratTrunc (q : ℚ) : Int :=
  if q < 0 then ⌈q⌉ else ⌊q⌋

/-- Wrap an integer into the signed 16-bit range, the second step of the
ToInt16 conversion. -/
def wrap16 (m : Int) : Int :=
  (m + 32768) % 65536 - 32768

/-- The signed 16-bit value that setInt16 stores for one input sample. -/
def writtenSample (x : ℚ) : Int :=
  wrap16 (ratTrunc (scaleSample x))

/-- videoUtils.js, audioBufferToWav data loop: for each frame index below
the buffer length, one 16-bit value per channel, channel-interleaved. -/
def sampleFrames (channels : List (List ℚ)) : Nat → List Int
  | 0 => []
  | n + 1 =>
      sampleFrames channels n ++
        channels.map (fun ch => writtenSample (ch.getD n 0))

/-- Little-endian bytes of a 16-bit field. -/
def le16 (n : Nat) : List Nat := [n % 256, n / 256 % 256]

/-- Little-endian bytes of a 32-bit field. -/
def le32 (n : Nat) : List Nat :=
  [n % 256, n / 256 % 256, n / 65536 % 256, n / 16777216 % 256]

/-- ASCII bytes of a header tag. -/
def strBytes (s : String) : List Nat := s.data.map Char.toNat

/-- Little-endian two's-complement bytes of one stored 16-bit sample. -/
def int16Bytes (v : Int) : List Nat := le16 ((v % 65536).toNat)

/-- videoUtils.js, audioBufferToWav: the 44-byte RIFF/WAVE header written at
offsets 0 through 43. -/
def wavHeader (length numChannels sampleRate : Nat) : List Nat :=
  strBytes "RIFF" ++ le32 (36 + length * numChannels * 2) ++
    strBytes "WAVE" ++ strBytes "fmt " ++ le32 16 ++ le16 1 ++
    le16 numChannels ++ le32 sampleRate ++ le32 (sampleRate * numChannels * 2) ++
    le16 (numChannels * 2) ++ le16 16 ++ strBytes "data" ++
    le32 (length * numChannels * 2)

/-- videoUtils.js, audioBufferToWav: the full byte stream, header followed by
the interleaved 16-bit samples. -/
def audioBufferToWav (channels : List (List ℚ)) (length sampleRate : Nat) :
    List Nat :=
  wavHeader length channels.length sampleRate ++
    ((sampleFrames channels length).map int16Bytes).flatten

/-- videoUtils.js, audioBufferToWav: the size of the ArrayBuffer it
allocates. -/
def wavAllocSize (length numChannels : Nat) : Nat :=
  44 + length * numChannels * 2

lemma sentencePred_eq (s : Sentence) (t : ℚ) :
    (decide (s.startTime ≤ t) && decide (t ≤ s.startTime + s.duration)) = true ↔
      inSentenceInterval s t := by
  simp [inSentenceInterval]

/-- Claim C7: update(id, partialFields) merges the given fields into the
segment whose id matches and leaves every other field of that segment and
every other segment unchanged; with no matching id it is a no-op on the
whole collection. -/
theorem c7_update_merges (sentenceId : Nat) (updates : SentenceUpdate)
    (l : List Sentence) :
    ((∀ s ∈ l, s.id ≠ sentenceId) → updateSentence sentenceId updates l = l) ∧
    (∀ i : Nat, (updateSentence sentenceId updates l)[i]? =
      (l[i]?).map (fun s =>
        if s.id = sentenceId then mergeSentence s updates else s)) ∧
    (∀ (s : Sentence) (x : String),
      mergeSentence s { translatedText := some x } =
        { s with translatedText := x }) := by
  refine ⟨?_, ?_, ?_⟩
  · intro h
    induction l with
    | nil => rfl
    | cons a t ih =>
        have ha : a.id ≠ sentenceId := h a (List.mem_cons_self a t)
        have ht := ih (fun s hs => h s (List.mem_cons_of_mem a hs))
        simpa [updateSentence, ha] using ht
  · intro i
    simp [updateSentence, List.getElem?_map]
  · intro s x
    rfl

def c7Sentence : Sentence :=
  { id := 1, startTime := 0, duration := 2
    originalText := "hello", translatedText := "old" }

/-- Witness for C7 at a concrete segment: an unknown id is a no-op, a
matching id rewrites exactly the translated text. -/
theorem c7_update_merges_witness :
    updateSentence 5 { translatedText := some "X" } [c7Sentence] = [c7Sentence] ∧
    (updateSentence 1 { translatedText := some "X" } [c7Sentence])[0]? =
      some { c7Sentence with translatedText := "X" } := by
  constructor
  · exact (c7_update_merges 5 { translatedText := some "X" } [c7Sentence]).1
      (by decide)
  · rw [(c7_update_merges 1 { translatedText := some "X" } [c7Sentence]).2.1 0]
    decide

def c8Sentences : List Sentence :=
  [ { id := 1, startTime := 0, duration := 2, originalText := "", translatedText := "" },
    { id := 2, startTime := 2, duration := 3, originalText := "", translatedText := "" } ]

/-- Claim C8: on the two-sentence list with intervals starting at 0 and 2,
getSentenceAtTime at time 2.5 returns the segment with id 2. -/
theorem c8_get_sentence_at_time_scenario :
    (getSentenceAtTime c8Sentences (5 / 2)).map Sentence.id = some 2 := by
  norm_num [getSentenceAtTime, c8Sentences, List.find?]

/-- Claim C9: getSentenceAtTime matches on the closed interval from
startTime to startTime plus duration, returns the first match in list
order, and returns none when no segment's interval contains the time. -/
theorem c9_first_closed_interval_match (l : List Sentence) (t : ℚ) :
    (getSentenceAtTime l t = none ↔ ∀ s ∈ l, ¬ inSentenceInterval s t) ∧
    (∀ s, getSentenceAtTime l t = some s → s ∈ l ∧ inSentenceInterval s t) ∧
    (∀ (pre post : List Sentence) (s : Sentence),
      l = pre ++ s :: post → inSentenceInterval s t →
      (∀ u ∈ pre, ¬ inSentenceInterval u t) →
      getSentenceAtTime l t = some s) := by
  refine ⟨?_, ?_, ?_⟩
  · rw [getSentenceAtTime, List.find?_eq_none]
    constructor
    · intro h s hs hint
      exact h s hs ((sentencePred_eq s t).mpr hint)
    · intro h s hs hp
      exact h s hs ((sentencePred_eq s t).mp hp)
  · intro s hs
    unfold getSentenceAtTime at hs
    have hp := @List.find?_some Sentence
      (fun sentence => decide (sentence.startTime ≤ t) &&
        decide (t ≤ sentence.startTime + sentence.duration)) s l hs
    exact ⟨List.mem_of_find?_eq_some hs, (sentencePred_eq s t).mp hp⟩
  · intro pre post s hl hint hpre
    subst hl
    unfold getSentenceAtTime
    revert hpre
    induction pre with
    | nil =>
        intro _
        simp only [List.nil_append]
        exact List.find?_cons_of_pos _ ((sentencePred_eq s t).mpr hint)
    | cons u pre ih =>
        intro hpre
        have hu : ¬ inSentenceInterval u t := hpre u (List.mem_cons_self u pre)
        rw [List.cons_append, List.find?_cons_of_neg]
        · exact ih (fun v hv => hpre v (List.mem_cons_of_mem u hv))
        · exact fun h => hu ((sentencePred_eq u t).mp h)

def c9SentenceA : Sentence :=
  { id := 1, startTime := 0, duration := 2, originalText := "", translatedText := "" }

def c9SentenceB : Sentence :=
  { id := 2, startTime := 1, duration := 4, originalText := "", translatedText := "" }

/-- Witness for C9: at time 2, the shared boundary of the first interval and
the interior of the second, the first segment in list order wins; at time 7,
outside both intervals, no segment is returned. -/
theorem c9_first_closed_interval_match_witness :
    getSentenceAtTime [c9SentenceA, c9SentenceB] 2 = some c9SentenceA ∧
    getSentenceAtTime [c9SentenceA, c9SentenceB] 7 = none := by
  constructor
  · exact (c9_first_closed_interval_match [c9SentenceA, c9SentenceB] 2).2.2
      [] [c9SentenceB] c9SentenceA rfl
      (by constructor <;> norm_num [c9SentenceA, inSentenceInterval])
      (by simp)
  · refine (c9_first_closed_interval_match [c9SentenceA, c9SentenceB] 7).1.mpr ?_
    intro s hs
    simp only [List.mem_cons, List.not_mem_nil, or_false] at hs
    rcases hs with rfl | rfl <;>
      norm_num [inSentenceInterval, c9SentenceA, c9SentenceB]

/-- The registry invariant of normal main-playback operation: the active
sources are exactly the one registered in sourceNodeRef, if any. -/
def SourceInv (s : EditorState) : Prop :=
  s.activeSources =
    match s.sourceNode with
    | none => []
    | some i => [i]

lemma stopSourceNode_fields (s : EditorState) :
    (stopSourceNode s).audioBuffer = s.audioBuffer ∧
    (stopSourceNode s).duration = s.duration ∧
    (stopSourceNode s).currentTime = s.currentTime ∧
    (stopSourceNode s).isPlaying = s.isPlaying ∧
    (stopSourceNode s).nextSourceId = s.nextSourceId := by
  cases h : s.sourceNode <;> simp [stopSourceNode, h]

lemma stopSourceNode_clears (s : EditorState) (hinv : SourceInv s) :
    (stopSourceNode s).activeSources = [] ∧
    (stopSourceNode s).sourceNode = none := by
  unfold SourceInv at hinv
  cases h : s.sourceNode with
  | none =>
      rw [h] at hinv
      simp only [stopSourceNode, h]
      exact ⟨hinv, trivial⟩
  | some i =>
      rw [h] at hinv
      simp [stopSourceNode, h, hinv]

lemma playAudio_sources (now : ℚ) (s : EditorState) (b : AudioBuf)
    (hinv : SourceInv s) (hb : s.audioBuffer = some b) :
    (playAudio now s).activeSources = [(stopSourceNode s).nextSourceId] ∧
    (playAudio now s).sourceNode = some (stopSourceNode s).nextSourceId ∧
    SourceInv (playAudio now s) ∧
    (playAudio now s).audioBuffer = some b ∧
    (playAudio now s).isPlaying = true := by
  have hs := stopSourceNode_clears s hinv
  have hf := stopSourceNode_fields s
  simp only [playAudio, hb]
  refine ⟨?_, ?_, ?_, ?_, ?_⟩ <;>
    simp [SourceInv, hs.1, hf.1, hb]

lemma pauseAudio_sources (s : EditorState) (hinv : SourceInv s) :
    (pauseAudio s).activeSources = [] ∧ (pauseAudio s).sourceNode = none ∧
    (pauseAudio s).isPlaying = false := by
  have hs := stopSourceNode_clears s hinv
  simp [pauseAudio, hs.1, hs.2]

lemma loadAudioFromUrl_sources (outcome : LoadOutcome) (tag : String)
    (s : EditorState) (hinv : SourceInv s) :
    (loadAudioFromUrl outcome tag s).activeSources = [] := by
  unfold loadAudioFromUrl
  by_cases hp : s.isPlaying
  · have h1 := pauseAudio_sources s hinv
    have h2 : SourceInv (pauseAudio s) := by
      unfold SourceInv
      rw [h1.1, h1.2.1]
    have h3 := stopSourceNode_clears (pauseAudio s) h2
    cases outcome <;> simp [hp, h3.1]
  · have h3 := stopSourceNode_clears s hinv
    cases outcome <;> simp [hp, h3.1]

/-- Sample decoded buffer used by the concrete scenarios. -/
def demoBuf : AudioBuf := { duration := 3 }

/-- Idle editor with a three-second buffer loaded and no active source. -/
def c1State : EditorState :=
  { isPlaying := false, currentTime := 0, duration := 3, startTimeRef := 0
    audioBuffer := some demoBuf, currentAudioType := "original"
    sourceNode := none, activeSources := [], nextSourceId := 0 }

/-- Sentence carrying a per-sentence clip URL. -/
def c1ClipSentence : Sentence :=
  { id := 1, startTime := 0, duration := 2
    originalText := "a", translatedText := "b"
    audioUrl := some "/api/download/sentence_1.wav" }

/-- Counterexample to claim C1 as stated: start main playback (one active
source), then play a per-sentence clip successfully; playSentenceAudio does
not stop the registered source, so two sources are active at once. -/
theorem c1_two_simultaneous_sources :
    (playAudio 0 c1State).activeSources.length = 1 ∧
    (playSentenceAudio (LoadOutcome.ok demoBuf) c1ClipSentence
      (playAudio 0 c1State)).activeSources.length = 2 := by
  constructor <;> rfl

/-- Amended claim C1: play and the buffer loaders stop the registered source
first, so calling play twice in succession leaves exactly one active source
and a load leaves none; only per-sentence clip playback escapes the
invariant. -/
theorem c1_single_source_for_play_and_load (s : EditorState) (b : AudioBuf)
    (nowA nowB : ℚ) (outcome : LoadOutcome) (tag : String)
    (hinv : SourceInv s) (hb : s.audioBuffer = some b) :
    (playAudio nowA s).activeSources.length = 1 ∧
    (playAudio nowB (playAudio nowA s)).activeSources.length = 1 ∧
    (loadAudioFromUrl outcome tag (playAudio nowA s)).activeSources.length = 0 ∧
    (pauseAudio (playAudio nowA s)).activeSources.length = 0 := by
  have h1 := playAudio_sources nowA s b hinv hb
  have h2 := playAudio_sources nowB (playAudio nowA s) b h1.2.2.1 h1.2.2.2.1
  have h3 := loadAudioFromUrl_sources outcome tag (playAudio nowA s) h1.2.2.1
  have h4 := pauseAudio_sources (playAudio nowA s) h1.2.2.1
  refine ⟨?_, ?_, ?_, ?_⟩
  · rw [h1.1]; rfl
  · rw [h2.1]; rfl
  · rw [h3]; rfl
  · rw [h4.1]; rfl

/-- Witness for the amended C1 at the concrete idle state: one source after
play, still one after a second play, none after a load or a pause. -/
theorem c1_single_source_witness :
    (playAudio 0 c1State).activeSources.length = 1 ∧
    (playAudio 1 (playAudio 0 c1State)).activeSources.length = 1 ∧
    (loadAudioFromUrl LoadOutcome.networkError "modified"
      (playAudio 0 c1State)).activeSources.length = 0 ∧
    (pauseAudio (playAudio 0 c1State)).activeSources.length = 0 :=
  c1_single_source_for_play_and_load c1State demoBuf 0 1
    LoadOutcome.networkError "modified" rfl rfl

/-- Playing editor: position 1 second into a three-second buffer, one
registered active source. -/
def c2State : EditorState :=
  { isPlaying := true, currentTime := 1, duration := 3, startTimeRef := 0
    audioBuffer := some demoBuf, currentAudioType := "original"
    sourceNode := some 0, activeSources := [0], nextSourceId := 1 }

/-- Claim C2, evaluated at the failing input: pauseAudio itself stops the
source, clears the playing flag and leaves the position at 1 second; but
stopping the source makes the platform dispatch its ended event, and the
handler the code installed on the source (AudioEditor.js lines 231-234)
then resets the position to zero, so the reported position after a pause is
0 rather than the frozen 1. -/
theorem c2_pause_then_onended_resets_position :
    c2State.currentTime = 1 ∧
    (pauseAudio c2State).currentTime = 1 ∧
    (pauseAudio c2State).isPlaying = false ∧
    (pauseAudio c2State).sourceNode = none ∧
    (sourceOnended (pauseAudio c2State)).currentTime = 0 := by
  refine ⟨rfl, rfl, rfl, rfl, rfl⟩

/-- Idle editor holding a previously loaded three-second buffer. -/
def c3State : EditorState :=
  { isPlaying := false, currentTime := 1, duration := 3, startTimeRef := 0
    audioBuffer := some demoBuf, currentAudioType := "original"
    sourceNode := none, activeSources := [], nextSourceId := 0 }

/-- Sentence carrying a modified full-mix URL. -/
def c3ModifiedSentence : Sentence :=
  { id := 2, startTime := 0, duration := 3
    originalText := "a", translatedText := "b"
    modifiedAudioUrl := some "/api/download/modified_full.wav" }

/-- Counterexample to claim C3 as stated: forceLoadCompleteAudio clears the
loaded buffer and its duration before attempting the load, so when the fetch
fails with HTTP 404 the previous buffer is gone instead of preserved, and
the operation still reports success. -/
theorem c3_force_load_drops_previous_buffer :
    c3State.audioBuffer = some demoBuf ∧
    c3State.duration = 3 ∧
    (forceLoadCompleteAudio (LoadOutcome.httpError 404) [c3ModifiedSentence]
      false c3State).1.audioBuffer = none ∧
    (forceLoadCompleteAudio (LoadOutcome.httpError 404) [c3ModifiedSentence]
      false c3State).1.duration = 0 ∧
    (forceLoadCompleteAudio (LoadOutcome.httpError 404) [c3ModifiedSentence]
      false c3State).2 = true := by
  refine ⟨rfl, rfl, rfl, rfl, rfl⟩

/-- Amended claim C3: loadAudioFromUrl itself leaves the previously loaded
buffer and its duration untouched on any fetch or decode failure (the
failure, however, is only logged, and forceLoadCompleteAudio clears the
buffer before loading). -/
theorem c3_load_failure_preserves_buffer (outcome : LoadOutcome)
    (tag : String) (s : EditorState)
    (hfail : ∀ b, outcome ≠ LoadOutcome.ok b) :
    (loadAudioFromUrl outcome tag s).audioBuffer = s.audioBuffer ∧
    (loadAudioFromUrl outcome tag s).duration = s.duration := by
  have hp : ∀ u : EditorState, (if u.isPlaying then pauseAudio u else u).audioBuffer
      = u.audioBuffer ∧ (if u.isPlaying then pauseAudio u else u).duration
      = u.duration := by
    intro u
    by_cases h : u.isPlaying <;>
      simp [h, pauseAudio, (stopSourceNode_fields u).1, (stopSourceNode_fields u).2.1]
  unfold loadAudioFromUrl
  cases outcome with
  | ok b => exact absurd rfl (hfail b)
  | httpError c =>
      exact ⟨by simp [(stopSourceNode_fields _).1, (hp s).1],
        by simp [(stopSourceNode_fields _).2.1, (hp s).2]⟩
  | networkError =>
      exact ⟨by simp [(stopSourceNode_fields _).1, (hp s).1],
        by simp [(stopSourceNode_fields _).2.1, (hp s).2]⟩
  | decodeError =>
      exact ⟨by simp [(stopSourceNode_fields _).1, (hp s).1],
        by simp [(stopSourceNode_fields _).2.1, (hp s).2]⟩

/-- Witness for the amended C3 at a concrete failing load: buffer and
duration survive a network error in loadAudioFromUrl. -/
theorem c3_load_failure_preserves_buffer_witness :
    (loadAudioFromUrl LoadOutcome.networkError "modified" c3State).audioBuffer
      = c3State.audioBuffer ∧
    (loadAudioFromUrl LoadOutcome.networkError "modified" c3State).duration
      = c3State.duration :=
  c3_load_failure_preserves_buffer LoadOutcome.networkError "modified" c3State
    (fun _ h => LoadOutcome.noConfusion h)

lemma mergeSentence_text_refined (s : Sentence) (x : String) :
    mergeSentence s { translatedText := some x, isRefined := some true } =
      { s with translatedText := x, isRefined := true } := rfl

/-- Claim C4: when the text-update step of handleDialogueRefine has run and
the audio-resynthesis request then fails (non-ok response or thrown error),
the target segment keeps the refined translated text and its refined flag,
while every other field, in particular audioUrl and modifiedAudioUrl, and
every other segment are exactly as before the request. -/
theorem c4_failed_resynthesis_keeps_text_and_audio (refining : Sentence)
    (refinedText nowIso : String) (outcome : RefineOutcome)
    (l : List Sentence) (hfail : ∀ r, outcome ≠ RefineOutcome.ok r) :
    ∀ i : Nat,
      (handleDialogueRefine refining refinedText nowIso outcome l)[i]? =
        (l[i]?).map (fun s =>
          if s.id = refining.id then
            { s with translatedText := refinedText, isRefined := true }
          else s) := by
  intro i
  cases outcome with
  | ok r => exact absurd rfl (hfail r)
  | httpError st =>
      simp only [handleDialogueRefine, updateSentence, List.getElem?_map,
        mergeSentence_text_refined]
  | networkError =>
      simp only [handleDialogueRefine, updateSentence, List.getElem?_map,
        Option.map_map]
      cases hcell : l[i]? with
      | none => rfl
      | some s =>
          simp only [Option.map_some', Function.comp_apply]
          by_cases h : s.id = refining.id
          · simp [h, mergeSentence_text_refined]
          · simp [h]

/-- Refined sentence used by the C4 witness, carrying both audio URLs. -/
def c4Sentence : Sentence :=
  { id := 3, startTime := 0, duration := 2
    originalText := "o", translatedText := "t"
    audioUrl := some "/api/download/sentence_3.wav"
    modifiedAudioUrl := some "/api/download/modified_full.wav" }

/-- Witness for C4 at a concrete segment and a thrown resynthesis error:
the text is refined, the flag set, and both audio URLs untouched. -/
theorem c4_failed_resynthesis_witness :
    (handleDialogueRefine c4Sentence "refined" "2026-01-01T00:00:00Z"
        RefineOutcome.networkError [c4Sentence])[0]? =
      some { c4Sentence with translatedText := "refined", isRefined := true } := by
  rw [c4_failed_resynthesis_keeps_text_and_audio c4Sentence "refined"
    "2026-01-01T00:00:00Z" RefineOutcome.networkError [c4Sentence]
    (fun r h => RefineOutcome.noConfusion h) 0]
  decide

/-- Sentence with a raw per-sentence clip URL, as fetched by
playSentenceAudio. -/
def c5Sentence : Sentence :=
  { id := 4, startTime := 0, duration := 1
    originalText := "", translatedText := ""
    audioUrl := some "/api/download/sentence_4.wav" }

/-- Counterexample to claim C5 as stated: the remote load performed by
playSentenceAudio fetches the raw clip URL with no cache-defeating query
parameter at all. -/
theorem c5_sentence_fetch_has_no_cache_param :
    playSentenceFetchUrl c5Sentence = some "/api/download/sentence_4.wav" ∧
    hasQuery "/api/download/sentence_4.wav" = false := by
  constructor <;> rfl

lemma hasQuery_cacheBustedUrl (url : String) (now : Nat) :
    hasQuery (cacheBustedUrl url now) = true := by
  unfold hasQuery cacheBustedUrl
  have hm : ("?t=").data.any (fun c => decide (c = '?')) = true := rfl
  simp [String.data_append, List.any_append, hm]

/-- Amended claim C5: the manual loaders (loadModifiedFullAudio and friends)
do append a clock-valued cache-defeating query parameter, and two loads
whose clock values print differently produce different URLs; only
playSentenceAudio fetches a raw URL without one. -/
theorem c5_manual_loaders_cache_bust (url : String) (t1 t2 : Nat)
    (hne : toString t1 ≠ toString t2) :
    cacheBustedUrl url t1 ≠ cacheBustedUrl url t2 ∧
    hasQuery (cacheBustedUrl url t1) = true ∧
    (∀ (sentences : List Sentence) (now : Nat) (u : String),
      loadModifiedFullAudioUrl now sentences = some u → hasQuery u = true) := by
  refine ⟨?_, hasQuery_cacheBustedUrl url t1, ?_⟩
  · intro h
    apply hne
    unfold cacheBustedUrl at h
    have h2 := congrArg String.data h
    simp only [String.data_append] at h2
    exact String.ext (List.append_cancel_left h2)
  · intro sentences now u h
    unfold loadModifiedFullAudioUrl at h
    split at h
    · split at h
      · cases h
        exact hasQuery_cacheBustedUrl _ now
      · cases h
    · cases h

/-- Witness for the amended C5 at two concrete clock values. -/
theorem c5_manual_loaders_cache_bust_witness :
    cacheBustedUrl "/api/download/modified_full.wav" 1000 ≠
      cacheBustedUrl "/api/download/modified_full.wav" 1001 ∧
    hasQuery (cacheBustedUrl "/api/download/modified_full.wav" 1000) = true := by
  have h := c5_manual_loaders_cache_bust "/api/download/modified_full.wav"
    1000 1001 (by decide)
  exact ⟨h.1, h.2.1⟩

lemma pauseAudio_currentTime (u : EditorState) :
    (pauseAudio u).currentTime = u.currentTime := by
  simp [pauseAudio, (stopSourceNode_fields u).2.2.1]

lemma playAudio_currentTime (now : ℚ) (u : EditorState) :
    (playAudio now u).currentTime = u.currentTime := by
  cases hb : u.audioBuffer <;>
    simp [playAudio, hb, (stopSourceNode_fields u).2.2.1]

lemma handleSeek_currentTime (clickX width now : ℚ) (s : EditorState)
    (hd : s.duration ≠ 0) :
    (handleSeek clickX width now s).currentTime =
      max 0 (min 1 (clickX / width)) * s.duration := by
  unfold handleSeek
  rw [if_neg hd]
  by_cases hp : s.isPlaying <;>
    simp [hp, playAudio_currentTime, pauseAudio_currentTime]

/-- Claim C6: handleSeek clamps the requested position into the unit range
of the buffer, so the resulting position always lies between 0 and the
loaded duration, and clicking at or past the right edge puts the position
exactly at the buffer's duration. -/
theorem c6_seek_clamps_to_duration (s : EditorState) (clickX width now : ℚ)
    (hd : 0 < s.duration) (hw : 0 < width) :
    0 ≤ (handleSeek clickX width now s).currentTime ∧
    (handleSeek clickX width now s).currentTime ≤ s.duration ∧
    (width ≤ clickX →
      (handleSeek clickX width now s).currentTime = s.duration) := by
  rw [handleSeek_currentTime clickX width now s (ne_of_gt hd)]
  refine ⟨?_, ?_, ?_⟩
  · exact mul_nonneg (le_max_left 0 _) hd.le
  · have h1 : max 0 (min 1 (clickX / width)) ≤ 1 :=
      max_le (by norm_num) (min_le_left _ _)
    calc max 0 (min 1 (clickX / width)) * s.duration
        ≤ 1 * s.duration := mul_le_mul_of_nonneg_right h1 hd.le
      _ = s.duration := one_mul _
  · intro hcx
    have h2 : (1 : ℚ) ≤ clickX / width := (one_le_div hw).mpr hcx
    rw [min_eq_left h2]
    norm_num

/-- Idle editor with a two-second buffer, used by the C6 witness. -/
def c6State : EditorState :=
  { isPlaying := false, currentTime := 0, duration := 2, startTimeRef := 0
    audioBuffer := some demoBuf, currentAudioType := "original"
    sourceNode := none, activeSources := [], nextSourceId := 0 }

/-- Witness for C6: a click three widths past the left edge of the bar
lands exactly on the two-second duration. -/
theorem c6_seek_clamps_witness :
    0 ≤ (handleSeek 3 1 0 c6State).currentTime ∧
    (handleSeek 3 1 0 c6State).currentTime ≤ c6State.duration ∧
    (handleSeek 3 1 0 c6State).currentTime = c6State.duration := by
  have h := c6_seek_clamps_to_duration c6State 3 1 0 (by decide) (by decide)
  exact ⟨h.1, h.2.1, h.2.2 (by decide)⟩

lemma clampSample_bounds (x : ℚ) :
    -1 ≤ clampSample x ∧ clampSample x ≤ 1 := by
  unfold clampSample
  exact ⟨le_max_left _ _, max_le (by norm_num) (min_le_left _ _)⟩

lemma ratTrunc_scale_bounds (x : ℚ) :
    -32768 ≤ ratTrunc (scaleSample x) ∧ ratTrunc (scaleSample x) ≤ 32767 := by
  obtain ⟨hl, hr⟩ := clampSample_bounds x
  unfold scaleSample
  by_cases hc : clampSample x < 0
  · rw [if_pos hc]
    have hq1 : (-32768 : ℚ) ≤ clampSample x * 32768 := by nlinarith
    have hq2 : clampSample x * 32768 < 0 := by nlinarith
    unfold ratTrunc
    rw [if_pos hq2]
    constructor
    · have hc1 : ((-32768 : ℤ) : ℚ) ≤ clampSample x * 32768 := by
        exact_mod_cast hq1
      calc (-32768 : ℤ) = ⌈((-32768 : ℤ) : ℚ)⌉ := (Int.ceil_intCast _).symm
        _ ≤ ⌈clampSample x * 32768⌉ := Int.ceil_le_ceil hc1
    · have h0 : ⌈clampSample x * 32768⌉ ≤ (0 : ℤ) :=
        Int.ceil_le.mpr (by exact_mod_cast hq2.le)
      omega
  · rw [if_neg hc]
    push_neg at hc
    have hq1 : (0 : ℚ) ≤ clampSample x * 32767 := mul_nonneg hc (by norm_num)
    have hq2 : clampSample x * 32767 ≤ 32767 := by nlinarith
    unfold ratTrunc
    rw [if_neg (not_lt.mpr hq1)]
    constructor
    · have h0 : (0 : ℤ) ≤ ⌊clampSample x * 32767⌋ := Int.floor_nonneg.mpr hq1
      omega
    · calc ⌊clampSample x * 32767⌋ ≤ ⌊(32767 : ℚ)⌋ := Int.floor_le_floor hq2
        _ = 32767 := by norm_num

lemma wrap16_eq_self (m : Int) (h1 : -32768 ≤ m) (h2 : m ≤ 32767) :
    wrap16 m = m := by
  unfold wrap16
  have h3 : (m + 32768) % 65536 = m + 32768 :=
    Int.emod_eq_of_lt (by omega) (by omega)
  omega

lemma writtenSample_bounds (x : ℚ) :
    writtenSample x = ratTrunc (scaleSample x) ∧
    -32768 ≤ writtenSample x ∧ writtenSample x ≤ 32767 := by
  obtain ⟨h1, h2⟩ := ratTrunc_scale_bounds x
  have he : writtenSample x = ratTrunc (scaleSample x) :=
    wrap16_eq_self _ h1 h2
  exact ⟨he, he ▸ h1, he ▸ h2⟩

lemma sampleFrames_length (channels : List (List ℚ)) (n : Nat) :
    (sampleFrames channels n).length = n * channels.length := by
  induction n with
  | zero => simp [sampleFrames]
  | succ k ih => simp [sampleFrames, ih, Nat.succ_mul]

lemma sampleFrames_mem (channels : List (List ℚ)) (n : Nat) (v : Int)
    (hv : v ∈ sampleFrames channels n) : ∃ x : ℚ, v = writtenSample x := by
  induction n with
  | zero => cases hv
  | succ k ih =>
      simp only [sampleFrames] at hv
      rcases List.mem_append.mp hv with h | h
      · exact ih h
      · rcases List.mem_map.mp h with ⟨ch, _, hmap⟩
        exact ⟨ch.getD k 0, hmap.symm⟩

lemma flatten_int16_length (vs : List Int) :
    ((vs.map int16Bytes).flatten).length = 2 * vs.length := by
  induction vs with
  | nil => rfl
  | cons v t ih =>
      simp only [List.map_cons, List.flatten_cons, List.length_append, ih,
        int16Bytes, le16, List.length_cons, List.length_nil]
      omega

lemma wavHeader_length (length numChannels sampleRate : Nat) :
    (wavHeader length numChannels sampleRate).length = 44 := rfl

/-- Claim C10: every 16-bit value the WAV encoder writes is the truncation
of the clamped, scaled sample with no 16-bit wrap-around and lies in the
signed 16-bit range, and the encoded byte stream (44-byte header plus two
bytes per sample per channel) exactly fills the allocated buffer of
44 plus length times channels times 2 bytes. -/
theorem c10_wav_encoder_bounds_and_size (channels : List (List ℚ))
    (n sampleRate : Nat) :
    (audioBufferToWav channels n sampleRate).length =
      wavAllocSize n channels.length ∧
    (∀ v ∈ sampleFrames channels n, -32768 ≤ v ∧ v ≤ 32767) ∧
    (∀ x : ℚ, writtenSample x = ratTrunc (scaleSample x)) := by
  refine ⟨?_, ?_, ?_⟩
  · simp only [audioBufferToWav, wavAllocSize, List.length_append,
      wavHeader_length, flatten_int16_length, sampleFrames_length]
    ring
  · intro v hv
    obtain ⟨x, rfl⟩ := sampleFrames_mem channels n v hv
    exact ⟨(writtenSample_bounds x).2.1, (writtenSample_bounds x).2.2⟩
  · intro x
    exact (writtenSample_bounds x).1

/-- Witness for C10 on a concrete two-channel, two-frame buffer with an
out-of-range sample: the byte stream fills the allocation exactly and the
stored value of an input of 2 stays in the signed 16-bit range. -/
theorem c10_wav_encoder_witness :
    (audioBufferToWav [[2, 0], [1, 1]] 2 44100).length = wavAllocSize 2 2 ∧
    -32768 ≤ writtenSample 2 ∧ writtenSample 2 ≤ 32767 := by
  have h := c10_wav_encoder_bounds_and_size [[2, 0], [1, 1]] 2 44100
  refine ⟨h.1, ?_, ?_⟩
  · exact (h.2.1 (writtenSample 2) (by simp [sampleFrames])).1
  · exact (h.2.1 (writtenSample 2) (by simp [sampleFrames])).2
